import Mathlib

/-!
Shallow embedding of the rou3-rs URL router core (src/context.rs, src/types.rs,
src/error.rs, src/operations/{util,add,find,find_all,remove}.rs) and proofs of
the specification claims about it.  Hash maps are modelled as association
lists (only keyed lookup, insert and removal are used by the source), the
reader/writer locks vanish in favour of explicit state passing, and fallible
operations return `Except`.
-/

namespace Rou3

/-- Error type, from src/error.rs (`RouterError`). -/
inductive RouterError where
  | InvalidPath (description : String)
  | RouteNotFound (method : String) (path : String)
  | InvalidSegment (segment : String) (reason : String)
deriving DecidableEq, Repr

/-- Parameter-plan directive, from src/types.rs (`ParamEntry`). -/
inductive ParamEntry where
  | Index (i : Nat) (name : String) (optional : Bool)
  | Wildcard (i : Nat) (name : String) (optional : Bool)
deriving DecidableEq, Repr

/-- Handler record, from src/types.rs (`MethodData`). -/
structure MethodData (T : Type) where
  data : T
  params_map : Option (List ParamEntry)
deriving DecidableEq, Repr

/-- Trie node, from src/context.rs (`Node`).  `AHashMap` fields become
association lists; the `Box` indirections disappear. -/
inductive Node (T : Type) where
  | mk (methods : List (String × List (MethodData T)))
       (static_children : List (String × Node T))
       (param_child : Option (Node T))
       (wildcard_child : Option (Node T))

/-- Field accessor for `Node.methods`. -/
def Node.methods : Node T → List (String × List (MethodData T))
  | .mk ms _ _ _ => ms

/-- Field accessor for `Node.static_children`. -/
def Node.static_children : Node T → List (String × Node T)
  | .mk _ sc _ _ => sc

/-- Field accessor for `Node.param_child`. -/
def Node.param_child : Node T → Option (Node T)
  | .mk _ _ pc _ => pc

/-- Field accessor for `Node.wildcard_child`. -/
def Node.wildcard_child : Node T → Option (Node T)
  | .mk _ _ _ wc => wc

/-- `Node::new`, from src/context.rs. -/
def Node.new : Node T := .mk [] [] none none

/-- `Node::is_empty_recursive`, from src/context.rs. -/
def is_empty_recursive (n : Node T) : Bool :=
  n.methods.isEmpty && n.static_children.isEmpty
    && n.param_child.isNone && n.wildcard_child.isNone

/-- Router state, from src/context.rs (`Router`): the root node plus the
static fast-path map (`IndexMap` becomes an ordered association list). -/
structure Router (T : Type) where
  root : Node T
  static_map : List (String × List (String × List (MethodData T)))

/-- `Router::new`, from src/context.rs. -/
def Router.empty : Router T := { root := Node.new, static_map := [] }

/-- Matched-route result, from src/types.rs (`MatchedRoute`); the parameter
hash map becomes an association list built by overwriting insertion. -/
structure MatchedRoute (T : Type) where
  data : T
  params : Option (List (String × String))
deriving DecidableEq, Repr

/-- Association-list lookup, modelling `AHashMap::get` / `IndexMap::get`. -/
def alookup {α : Type} : List (String × α) → String → Option α
  | [], _ => none
  | (k', v) :: rest, k => if k' = k then some v else alookup rest k

/-- Association-list insert-or-replace, modelling `AHashMap::insert` /
`entry(..).or_default()` style updates (keys stay unique). -/
def ainsert {α : Type} : List (String × α) → String → α → List (String × α)
  | [], k, v => [(k, v)]
  | (k', v') :: rest, k, v =>
    if k' = k then (k, v) :: rest else (k', v') :: ainsert rest k v

/-- Association-list key removal, modelling `AHashMap::remove` /
`IndexMap::shift_remove`. -/
def aremove {α : Type} : List (String × α) → String → List (String × α)
  | [], _ => []
  | (k', v') :: rest, k => if k' = k then rest else (k', v') :: aremove rest k

/-- Splitting a character list at `/` separators, keeping empty pieces —
the behaviour of Rust's `str::split('/')`. -/
def splitSlashGo : List Char → List Char → List String
  | [], acc => [String.mk acc.reverse]
  | c :: cs, acc =>
    if c = '/' then String.mk acc.reverse :: splitSlashGo cs []
    else splitSlashGo cs (c :: acc)

/-- `split('/')` + discarding of empty segments, from `split_path` and the
body of `normalize` in src/operations/util.rs. -/
def split_path (s : String) : List String :=
  (splitSlashGo s.data []).filter (fun seg => seg ≠ "")

/-- `normalize`, from src/operations/util.rs: canonical form joins the
non-empty segments with single separators. -/
def normalize (path : String) : String :=
  String.intercalate "/" (split_path path)

/-- `contains([':', '*'])` on a path string, as used by the static fast-path
tests in src/operations/{add,find,remove}.rs. -/
def containsDyn (s : String) : Bool :=
  s.data.any (fun c => c == ':' || c == '*')

/-- Character-level prefix test (first argument is the prefix pattern),
modelling Rust's `str::starts_with`. -/
def hasPrefixChars : List Char → List Char → Bool
  | [], _ => true
  | _ :: _, [] => false
  | p :: ps, c :: cs => p == c && hasPrefixChars ps cs

/-- `starts_with` on segment strings. -/
def segStartsWith (s p : String) : Bool := hasPrefixChars p.data s.data

/-- `ends_with('?')` on segment strings. -/
def segEndsWithQ (s : String) : Bool := s.data.getLast? == some '?'

/-- Stripping of a trailing optional marker from a segment, modelling
`ends_with('?')` + truncation (add.rs) and `strip_suffix('?')` (remove.rs). -/
def dropQMark (s : String) : String :=
  if segEndsWithQ s then s.dropRight 1 else s

/-- Loop body of `build_param_entries_for_pattern_segments`
(src/operations/add.rs): `i` is the running index, `acc` the entries pushed
so far, `has` the `has_params` flag; `rest = []` means the current segment is
the last one. -/
def build_param_entries_go :
    Nat → List ParamEntry → Bool → List String →
      Except RouterError (Option (List ParamEntry))
  | _, acc, has, [] => .ok (if has then some acc else none)
  | i, acc, has, seg :: rest =>
    let isOpt := segEndsWithQ seg
    let s := dropQMark seg
    if s = "" ∧ rest ≠ [] then
      .error (.InvalidSegment ("\x27" ++ s ++ "\x27 at index " ++ toString i)
        "empty segments are not allowed unless at the very end")
    else if segStartsWith s "**" then
      if segStartsWith s "**:" then
        let nm := s.drop 3
        if nm = "" then
          .error (.InvalidSegment s "named wildcard must have a name")
        else if rest = [] then
          .ok (some (acc ++ [.Wildcard i nm isOpt]))
        else
          .error (.InvalidSegment s "wildcard (**) must be the last segment")
      else if s = "**" then
        if rest = [] then
          .ok (some (acc ++ [.Wildcard i "_" isOpt]))
        else
          .error (.InvalidSegment s "wildcard (**) must be the last segment")
      else
        .error (.InvalidSegment s "invalid wildcard format")
    else if segStartsWith s ":" then
      let nm := s.drop 1
      if nm = "" then
        .error (.InvalidSegment s "named parameter must have a name")
      else
        build_param_entries_go (i + 1) (acc ++ [.Index i nm isOpt]) true rest
    else if s = "*" then
      build_param_entries_go (i + 1) (acc ++ [.Index i "_" isOpt]) true rest
    else if s.data.any (fun c => c == ':' || c == '*') then
      .error (.InvalidSegment s "parameter/wildcard characters must appear at the start")
    else
      build_param_entries_go (i + 1) acc has rest

/-- `build_param_entries_for_pattern_segments`, from src/operations/add.rs. -/
def build_param_entries_for_pattern_segments (segments : List String) :
    Except RouterError (Option (List ParamEntry)) :=
  build_param_entries_go 0 [] false segments

/-- Appending a handler record under a method key, modelling
`methods.entry(method).or_default().push(md)` in src/operations/add.rs. -/
def methodsPush (ms : List (String × List (MethodData T))) (method : String)
    (md : MethodData T) : List (String × List (MethodData T)) :=
  ainsert ms method ((alookup ms method).getD [] ++ [md])

/-- A node with one more handler record appended at itself. -/
def pushMethodAt (n : Node T) (method : String) (md : MethodData T) : Node T :=
  .mk (methodsPush n.methods method md) n.static_children n.param_child n.wildcard_child

/-- The trie-walk loop of `add_route` (src/operations/add.rs): descend through
the pattern segments creating children on demand; a wildcard segment stops
the walk (`break`), and the handler record lands on the node reached. -/
def route_insert : Node T → String → List String → MethodData T → Node T
  | n, method, [], md => pushMethodAt n method md
  | n, method, seg :: rest, md =>
    let t := dropQMark seg
    if segStartsWith t "**" then
      .mk n.methods n.static_children n.param_child
        (some (pushMethodAt (n.wildcard_child.getD Node.new) method md))
    else if segStartsWith t ":" || t = "*" then
      .mk n.methods n.static_children
        (some (route_insert (n.param_child.getD Node.new) method rest md))
        n.wildcard_child
    else
      .mk n.methods
        (ainsert n.static_children seg
          (route_insert ((alookup n.static_children seg).getD Node.new) method rest md))
        n.param_child n.wildcard_child

/-- `add_route`, from src/operations/add.rs: analyze the pattern, mirror a
purely static pattern into the static fast-path map, then walk the trie and
append the handler record.  Analyzer failure happens before any mutation, so
the error branch carries no new state. -/
def add_route (r : Router T) (method path : String) (data : T) :
    Except RouterError (Router T) :=
  let normalized := normalize path
  let segments := split_path normalized
  match build_param_entries_for_pattern_segments segments with
  | .error e => .error e
  | .ok params_map =>
    let static' :=
      if params_map.isNone ∧ ¬ containsDyn normalized then
        let mfp := (alookup r.static_map normalized).getD []
        ainsert r.static_map normalized
          (ainsert mfp method ((alookup mfp method).getD [] ++ [⟨data, none⟩]))
      else r.static_map
    .ok { root := route_insert r.root method segments ⟨data, params_map⟩,
          static_map := static' }

/-- `get(method).or_else(|| get(""))` — the method-preference rule used in
src/operations/find.rs and src/operations/find_all.rs. -/
def methodsPref (ms : List (String × List (MethodData T))) (method : String) :
    Option (List (MethodData T)) :=
  match alookup ms method with
  | some l => some l
  | none => alookup ms ""

/-- `is_handler_for_optional_pattern`, from src/operations/find.rs. -/
def is_handler_for_optional_pattern (md : MethodData T) : Bool :=
  match md.params_map with
  | none => false
  | some pm =>
    match pm.getLast? with
    | none => false
    | some (.Index _ _ isOpt) => isOpt
    | some (.Wildcard _ _ isOpt) => isOpt

/-- `lookup_node_recursive`, from src/operations/find.rs: the single-best-match
trie walk.  The remaining path suffix replaces the `idx` cursor. -/
def lookup_node_recursive : Node T → String → List String → Option (MethodData T)
  | n, method, [] =>
    match methodsPref n.methods method with
    | some (md :: _) => some md
    | _ =>
      let viaParam : Option (MethodData T) :=
        match n.param_child with
        | some pc =>
          match methodsPref pc.methods method with
          | some handlers =>
            if handlers.any is_handler_for_optional_pattern then handlers.head?
            else none
          | none => none
        | none => none
      match viaParam with
      | some md => some md
      | none =>
        match n.wildcard_child with
        | some wc =>
          match methodsPref wc.methods method with
          | some handlers => handlers.head?
          | none => none
        | none => none
  | n, method, seg :: rest =>
    let viaStatic : Option (MethodData T) :=
      match alookup n.static_children seg with
      | some c => lookup_node_recursive c method rest
      | none => none
    match viaStatic with
    | some md => some md
    | none =>
      match
        (match n.param_child with
         | some pc => lookup_node_recursive pc method rest
         | none => none) with
      | some md => some md
      | none =>
        match n.wildcard_child with
        | some wc =>
          match methodsPref wc.methods method with
          | some handlers => handlers.head?
          | none => none
        | none => none

/-- Overwriting insertion into the captured-parameter map, modelling
`AHashMap::insert` in `extract_all_params`. -/
def insertKV : List (String × String) → String → String → List (String × String)
  | [], k, v => [(k, v)]
  | (k', v') :: rest, k, v =>
    if k' = k then (k, v) :: rest else (k', v') :: insertKV rest k v

/-- `extract_all_params`, from src/operations/util.rs. -/
def extract_all_params (segments : List String)
    (plan : Option (List ParamEntry)) : Option (List (String × String)) :=
  match plan with
  | none => none
  | some entries =>
    if entries = [] then none
    else
      let m := entries.foldl (fun acc e =>
        match e with
        | .Index i nm _ =>
          if i < segments.length then insertKV acc nm (segments.getD i "") else acc
        | .Wildcard i nm _ =>
          insertKV acc nm
            (if i < segments.length then String.intercalate "/" (segments.drop i)
             else "")) []
      if m = [] then none else some m

/-- `find_route`, from src/operations/find.rs: static fast path first, then
the recursive trie walk; a miss reports the caller-supplied path. -/
def find_route (r : Router T) (method path : String) (capture : Bool) :
    Except RouterError (MatchedRoute T) :=
  let normalized := normalize path
  let segments := split_path normalized
  let staticHit : Option (MatchedRoute T) :=
    if ¬ containsDyn normalized then
      match alookup r.static_map normalized with
      | some mfp =>
        match methodsPref mfp method with
        | some (md :: _) =>
          if md.params_map.isNone then some ⟨md.data, none⟩ else none
        | _ => none
      | none => none
    else none
  match staticHit with
  | some m => .ok m
  | none =>
    match lookup_node_recursive r.root method segments with
    | some md =>
      .ok ⟨md.data, if capture then extract_all_params segments md.params_map else none⟩
    | none => .error (.RouteNotFound method path)

/-- `is_last_param_optional_for_find_all`, from src/operations/find_all.rs
(textually the same test as `is_handler_for_optional_pattern`). -/
def is_last_param_optional_for_find_all (md : MethodData T) : Bool :=
  match md.params_map with
  | none => false
  | some pm =>
    match pm.getLast? with
    | none => false
    | some (.Index _ _ isOpt) => isOpt
    | some (.Wildcard _ _ isOpt) => isOpt

/-- The handler records a wildcard child contributes at the current node,
step 1 of `find_all_recursive_ordered` (src/operations/find_all.rs). -/
def wildcardPart (n : Node T) (method : String) : List (MethodData T) :=
  match n.wildcard_child with
  | some wc => (methodsPref wc.methods method).getD []
  | none => []

/-- `find_all_recursive_ordered`, from src/operations/find_all.rs: collects
handler records in order wildcard child, param child, static child, own
methods; the `idx` cursor becomes the remaining path suffix. -/
def find_all_recursive_ordered : Node T → String → List String → List (MethodData T)
  | n, method, [] =>
    wildcardPart n method
      ++ (match n.param_child with
          | some pc =>
            match methodsPref pc.methods method with
            | some handlers =>
              if handlers.any is_last_param_optional_for_find_all then handlers
              else []
            | none => []
          | none => [])
      ++ (methodsPref n.methods method).getD []
  | n, method, seg :: rest =>
    wildcardPart n method
      ++ (match n.param_child with
          | some pc => find_all_recursive_ordered pc method rest
          | none => [])
      ++ (match alookup n.static_children seg with
          | some c => find_all_recursive_ordered c method rest
          | none => [])

/-- De-duplication pass of `find_all_routes` (src/operations/find_all.rs):
first occurrence of each payload wins, collection order preserved; parameters
are extracted with the plan of the record that produced the match. -/
def dedupResults [DecidableEq T] (capture : Bool) (segments : List String) :
    List (MethodData T) → List T → List (MatchedRoute T)
  | [], _ => []
  | md :: rest, seen =>
    if md.data ∈ seen then dedupResults capture segments rest seen
    else
      ⟨md.data, if capture then extract_all_params segments md.params_map else none⟩
        :: dedupResults capture segments rest (md.data :: seen)

/-- `find_all_routes`, from src/operations/find_all.rs. -/
def find_all_routes [DecidableEq T] (r : Router T) (method path : String)
    (capture : Bool) : List (MatchedRoute T) :=
  let normalized := normalize path
  let segments := split_path normalized
  dedupResults capture segments (find_all_recursive_ordered r.root method segments) []

/-- `recurse_remove`, from src/operations/remove.rs: at the terminal node the
whole handler list for the method is dropped; on the way back a traversed
child that reports a modification and has become empty is detached.  The
returned flag is the "modified" result. -/
def recurse_remove : Node T → String → List String → Node T × Bool
  | n, method, [] =>
    match alookup n.methods method with
    | some handlers =>
      (.mk (aremove n.methods method) n.static_children n.param_child n.wildcard_child,
       !handlers.isEmpty)
    | none => (n, false)
  | n, method, seg :: rest =>
    let t := dropQMark seg
    if segStartsWith t "**" then
      match n.wildcard_child with
      | some c =>
        let res := recurse_remove c method rest
        if res.2 then
          if is_empty_recursive res.1 then
            (.mk n.methods n.static_children n.param_child none, true)
          else (.mk n.methods n.static_children n.param_child (some res.1), true)
        else (.mk n.methods n.static_children n.param_child (some res.1), false)
      | none => (n, false)
    else if segStartsWith t ":" || t = "*" then
      match n.param_child with
      | some c =>
        let res := recurse_remove c method rest
        if res.2 then
          if is_empty_recursive res.1 then
            (.mk n.methods n.static_children none n.wildcard_child, true)
          else (.mk n.methods n.static_children (some res.1) n.wildcard_child, true)
        else (.mk n.methods n.static_children (some res.1) n.wildcard_child, false)
      | none => (n, false)
    else
      match alookup n.static_children seg with
      | some c =>
        let res := recurse_remove c method rest
        if res.2 then
          if is_empty_recursive res.1 then
            (.mk n.methods (aremove n.static_children seg) n.param_child n.wildcard_child,
             true)
          else
            (.mk n.methods (ainsert n.static_children seg res.1) n.param_child
              n.wildcard_child, true)
        else
          (.mk n.methods (ainsert n.static_children seg res.1) n.param_child
            n.wildcard_child, false)
      | none => (n, false)

/-- `remove_route`, from src/operations/remove.rs: the trie-side removal
(with the empty-pattern special case at the root), then the static-map
cleanup for dynamic-free patterns; returns whether anything changed. -/
def remove_route (r : Router T) (method path : String) :
    Except RouterError (Router T × Bool) :=
  let normalized := normalize path
  let segments := split_path normalized
  let trieRes : Node T × Bool :=
    if segments.isEmpty then
      match alookup r.root.methods method with
      | some handlers =>
        (.mk (aremove r.root.methods method) r.root.static_children
          r.root.param_child r.root.wildcard_child, !handlers.isEmpty)
      | none => (r.root, false)
    else recurse_remove r.root method segments
  let staticRes : List (String × List (String × List (MethodData T))) × Bool :=
    if ¬ containsDyn normalized then
      match alookup r.static_map normalized with
      | some mfp =>
        let removedHere := (alookup mfp method).isSome
        let mfp' := aremove mfp method
        (if mfp'.isEmpty then aremove r.static_map normalized
         else ainsert r.static_map normalized mfp', removedHere)
      | none => (r.static_map, false)
    else (r.static_map, false)
  .ok ({ root := trieRes.1, static_map := staticRes.1 }, trieRes.2 || staticRes.2)

/-- A successful insert, or the unchanged router on analyzer failure — the
state seen by a caller who ignores the result of `add_route`. -/
def addOk (r : Router T) (method path : String) (data : T) : Router T :=
  match add_route r method path data with
  | .ok r' => r'
  | .error _ => r

/-- The router state after `remove_route` (which never fails). -/
def removeOk (r : Router T) (method path : String) : Router T :=
  match remove_route r method path with
  | .ok res => res.1
  | .error _ => r

/-- One insert or remove call, for stating whole-history invariants. -/
inductive RouterOp (T : Type) where
  | add (method path : String) (data : T)
  | remove (method path : String)

/-- Application of one operation to the router state; a failed insert leaves
the state unchanged (insert is atomic on analyzer failure). -/
def applyOp (r : Router T) : RouterOp T → Router T
  | .add m p v => addOk r m p v
  | .remove m p => removeOk r m p

/-- The router reached from `Router::new` by a sequence of operations. -/
def runOps (ops : List (RouterOp T)) : Router T :=
  ops.foldl applyOp Router.empty

/-- Every handler list stored in a method map is non-empty (the source only
creates entries by pushing a record into them and deletes emptied entries). -/
def handlersOK (ms : List (String × List (MethodData T))) : Bool :=
  ms.all (fun p => !p.2.isEmpty)

mutual
/-- Structural invariant of a trie node: its method map has no empty handler
lists, and every child (of any of the three kinds), recursively, is non-empty
in the sense of `is_empty_recursive` and itself well-formed. -/
def goodNode : Node T → Bool
  | .mk ms sc pc wc => handlersOK ms && goodChildren sc && goodOpt pc && goodOpt wc
/-- `goodNode` over the static-children association list. -/
def goodChildren : List (String × Node T) → Bool
  | [] => true
  | (_, c) :: rest => (!is_empty_recursive c && goodNode c) && goodChildren rest
/-- `goodNode` over an optional (param or wildcard) child. -/
def goodOpt : Option (Node T) → Bool
  | none => true
  | some c => !is_empty_recursive c && goodNode c
end

mutual
/-- Claim-level property: every proper descendant of this node (that is,
every non-root node reachable from it) has at least one handler record or at
least one child. -/
def noEmptyDescendant : Node T → Bool
  | .mk _ sc pc wc => neChildren sc && neOpt pc && neOpt wc
/-- `noEmptyDescendant` over the static-children association list. -/
def neChildren : List (String × Node T) → Bool
  | [] => true
  | (_, c) :: rest => (!is_empty_recursive c && noEmptyDescendant c) && neChildren rest
/-- `noEmptyDescendant` over an optional child. -/
def neOpt : Option (Node T) → Bool
  | none => true
  | some c => !is_empty_recursive c && noEmptyDescendant c
end

@[simp]
theorem Node.methods_mk (ms : List (String × List (MethodData T)))
    (sc : List (String × Node T)) (pc wc : Option (Node T)) :
    (Node.mk ms sc pc wc).methods = ms := rfl

@[simp]
theorem Node.static_children_mk (ms : List (String × List (MethodData T)))
    (sc : List (String × Node T)) (pc wc : Option (Node T)) :
    (Node.mk ms sc pc wc).static_children = sc := rfl

@[simp]
theorem Node.param_child_mk (ms : List (String × List (MethodData T)))
    (sc : List (String × Node T)) (pc wc : Option (Node T)) :
    (Node.mk ms sc pc wc).param_child = pc := rfl

@[simp]
theorem Node.wildcard_child_mk (ms : List (String × List (MethodData T)))
    (sc : List (String × Node T)) (pc wc : Option (Node T)) :
    (Node.mk ms sc pc wc).wildcard_child = wc := rfl

theorem goodNode_mk (ms : List (String × List (MethodData T)))
    (sc : List (String × Node T)) (pc wc : Option (Node T)) :
    goodNode (Node.mk ms sc pc wc)
      = (handlersOK ms && goodChildren sc && goodOpt pc && goodOpt wc) := rfl

theorem goodOpt_none : goodOpt (none : Option (Node T)) = true := rfl

theorem goodOpt_some (c : Node T) :
    goodOpt (some c) = (!is_empty_recursive c && goodNode c) := rfl

theorem goodChildren_nil : goodChildren ([] : List (String × Node T)) = true := rfl

theorem goodChildren_cons (k : String) (c : Node T) (rest : List (String × Node T)) :
    goodChildren ((k, c) :: rest)
      = ((!is_empty_recursive c && goodNode c) && goodChildren rest) := rfl

theorem neDescendant_mk (ms : List (String × List (MethodData T)))
    (sc : List (String × Node T)) (pc wc : Option (Node T)) :
    noEmptyDescendant (Node.mk ms sc pc wc)
      = (neChildren sc && neOpt pc && neOpt wc) := rfl

theorem neOpt_none : neOpt (none : Option (Node T)) = true := rfl

theorem neOpt_some (c : Node T) :
    neOpt (some c) = (!is_empty_recursive c && noEmptyDescendant c) := rfl

theorem neChildren_nil : neChildren ([] : List (String × Node T)) = true := rfl

theorem neChildren_cons (k : String) (c : Node T) (rest : List (String × Node T)) :
    neChildren ((k, c) :: rest)
      = ((!is_empty_recursive c && noEmptyDescendant c) && neChildren rest) := rfl

theorem goodNode_new : goodNode (Node.new : Node T) = true := rfl

theorem ainsert_ne_nil {α : Type} (l : List (String × α)) (k : String) (v : α) :
    ainsert l k v ≠ [] := by
  cases l with
  | nil => simp [ainsert]
  | cons h rest =>
    obtain ⟨k', v'⟩ := h
    by_cases hk : k' = k <;> simp [ainsert, hk]

theorem alookup_ainsert_self {α : Type} :
    ∀ (l : List (String × α)) (k : String) (v : α),
      alookup l k = some v → ainsert l k v = l := by
  intro l
  induction l with
  | nil => intro k v h; simp [alookup] at h
  | cons h rest ih =>
    obtain ⟨k', v'⟩ := h
    intro k v hl
    by_cases hk : k' = k
    · subst hk
      simp [alookup] at hl
      simp [ainsert, hl]
    · simp [alookup, hk] at hl
      simp [ainsert, hk, ih k v hl]

theorem handlersOK_alookup {ms : List (String × List (MethodData T))}
    {k : String} {l : List (MethodData T)} (hok : handlersOK ms = true)
    (hl : alookup ms k = some l) : l.isEmpty = false := by
  induction ms with
  | nil => simp [alookup] at hl
  | cons h rest ih =>
    obtain ⟨k', v'⟩ := h
    simp [handlersOK, List.all_cons] at hok
    by_cases hk : k' = k
    · simp [alookup, hk] at hl
      subst hl
      simpa using hok.1
    · simp [alookup, hk] at hl
      exact ih (by simp [handlersOK]; exact hok.2) hl

theorem handlersOK_ainsert {ms : List (String × List (MethodData T))}
    {k : String} {v : List (MethodData T)} (hok : handlersOK ms = true)
    (hv : v.isEmpty = false) : handlersOK (ainsert ms k v) = true := by
  induction ms with
  | nil => simp [ainsert, handlersOK, hv]
  | cons h rest ih =>
    obtain ⟨k', v'⟩ := h
    simp [handlersOK, List.all_cons] at hok
    by_cases hk : k' = k
    · simp [ainsert, hk, handlersOK, List.all_cons, hv]
      simpa [handlersOK] using hok.2
    · simp [ainsert, hk, handlersOK, List.all_cons]
      refine ⟨by simpa using hok.1, ?_⟩
      simpa [handlersOK] using ih (by simp [handlersOK]; exact hok.2)

theorem handlersOK_aremove {ms : List (String × List (MethodData T))}
    {k : String} (hok : handlersOK ms = true) :
    handlersOK (aremove ms k) = true := by
  induction ms with
  | nil => simp [aremove, handlersOK]
  | cons h rest ih =>
    obtain ⟨k', v'⟩ := h
    simp [handlersOK, List.all_cons] at hok
    by_cases hk : k' = k
    · simp [aremove, hk, handlersOK]
      exact hok.2
    · simp [aremove, hk, handlersOK, List.all_cons]
      refine ⟨by simpa using hok.1, ?_⟩
      simpa [handlersOK] using ih (by simp [handlersOK]; exact hok.2)

theorem methodsPush_handlersOK {ms : List (String × List (MethodData T))}
    {method : String} {md : MethodData T} (hok : handlersOK ms = true) :
    handlersOK (methodsPush ms method md) = true := by
  apply handlersOK_ainsert hok
  simp [List.isEmpty_iff]

theorem methodsPush_ne_nil (ms : List (String × List (MethodData T)))
    (method : String) (md : MethodData T) :
    (methodsPush ms method md).isEmpty = false := by
  simp [methodsPush, List.isEmpty_iff]
  exact ainsert_ne_nil _ _ _

theorem goodChildren_alookup {sc : List (String × Node T)} {k : String}
    {c : Node T} (hg : goodChildren sc = true) (hl : alookup sc k = some c) :
    is_empty_recursive c = false ∧ goodNode c = true := by
  induction sc with
  | nil => simp [alookup] at hl
  | cons h rest ih =>
    obtain ⟨k', c'⟩ := h
    rw [goodChildren] at hg
    simp only [Bool.and_eq_true] at hg
    by_cases hk : k' = k
    · simp [alookup, hk] at hl
      subst hl
      exact ⟨by simpa using hg.1.1, hg.1.2⟩
    · simp [alookup, hk] at hl
      exact ih hg.2 hl

theorem goodChildren_ainsert {sc : List (String × Node T)} {k : String}
    {c : Node T} (hg : goodChildren sc = true)
    (hne : is_empty_recursive c = false) (hc : goodNode c = true) :
    goodChildren (ainsert sc k c) = true := by
  induction sc with
  | nil => simp [ainsert, goodChildren, hne, hc]
  | cons h rest ih =>
    obtain ⟨k', c'⟩ := h
    rw [goodChildren] at hg
    simp only [Bool.and_eq_true] at hg
    by_cases hk : k' = k
    · simp only [ainsert, hk, if_pos rfl]
      simp only [goodChildren, Bool.and_eq_true]
      exact ⟨⟨by simp [hne], hc⟩, hg.2⟩
    · simp only [ainsert, hk, if_neg hk]
      simp only [goodChildren, Bool.and_eq_true]
      exact ⟨⟨hg.1.1, hg.1.2⟩, ih hg.2⟩

theorem goodChildren_aremove {sc : List (String × Node T)} {k : String}
    (hg : goodChildren sc = true) : goodChildren (aremove sc k) = true := by
  induction sc with
  | nil => simp [aremove, goodChildren]
  | cons h rest ih =>
    obtain ⟨k', c'⟩ := h
    rw [goodChildren] at hg
    simp only [Bool.and_eq_true] at hg
    by_cases hk : k' = k
    · simp only [aremove, hk, if_pos rfl]
      exact hg.2
    · simp only [aremove, hk, if_neg hk]
      simp only [goodChildren, Bool.and_eq_true]
      exact ⟨⟨hg.1.1, hg.1.2⟩, ih hg.2⟩

theorem pushMethodAt_good {n : Node T} (method : String) (md : MethodData T)
    (hg : goodNode n = true) :
    goodNode (pushMethodAt n method md) = true ∧
      is_empty_recursive (pushMethodAt n method md) = false := by
  cases n with
  | mk ms sc pc wc =>
    simp only [goodNode_mk, Bool.and_eq_true] at hg
    obtain ⟨⟨⟨h1, h2⟩, h3⟩, h4⟩ := hg
    constructor
    · simp only [pushMethodAt, Node.methods_mk, Node.static_children_mk,
        Node.param_child_mk, Node.wildcard_child_mk, goodNode_mk, Bool.and_eq_true]
      exact ⟨⟨⟨methodsPush_handlersOK h1, h2⟩, h3⟩, h4⟩
    · simp [pushMethodAt, is_empty_recursive, methodsPush_ne_nil]

theorem goodOpt_getD_new {c : Option (Node T)} (h : goodOpt c = true) :
    goodNode (c.getD Node.new) = true := by
  cases c with
  | none => simpa using goodNode_new
  | some c' =>
    simp only [goodOpt_some, Bool.and_eq_true] at h
    simpa using h.2

theorem route_insert_good :
    ∀ (segs : List String) (n : Node T) (method : String) (md : MethodData T),
      goodNode n = true →
      goodNode (route_insert n method segs md) = true ∧
        is_empty_recursive (route_insert n method segs md) = false := by
  intro segs
  induction segs with
  | nil =>
    intro n method md hg
    simpa [route_insert] using pushMethodAt_good method md hg
  | cons seg rest ih =>
    intro n method md hg
    cases n with
    | mk ms sc pc wc =>
      simp only [goodNode_mk, Bool.and_eq_true] at hg
      obtain ⟨⟨⟨h1, h2⟩, h3⟩, h4⟩ := hg
      by_cases hw : segStartsWith (dropQMark seg) "**"
      · have hcg : goodNode ((Node.wildcard_child (.mk ms sc pc wc)).getD Node.new) = true :=
          goodOpt_getD_new (by simpa using h4)
        have hp := pushMethodAt_good (n := (Node.wildcard_child (.mk ms sc pc wc)).getD Node.new)
          method md hcg
        constructor
        · simp only [route_insert, hw, ite_true, ite_false, Node.methods_mk,
            Node.static_children_mk, Node.param_child_mk, Node.wildcard_child_mk,
            goodNode_mk, goodOpt_some, Bool.and_eq_true]
          refine ⟨⟨⟨h1, h2⟩, h3⟩, ?_, ?_⟩
          · simpa using hp.2
          · simpa using hp.1
        · simp [route_insert, hw, is_empty_recursive]
      · by_cases hpm : segStartsWith (dropQMark seg) ":" || dropQMark seg = "*"
        · have hcg : goodNode ((Node.param_child (.mk ms sc pc wc)).getD Node.new) = true :=
            goodOpt_getD_new (by simpa using h3)
          have hp := ih ((Node.param_child (.mk ms sc pc wc)).getD Node.new) method md hcg
          constructor
          · simp only [route_insert, hw, hpm, ite_true, ite_false, Bool.false_eq_true,
              Node.methods_mk, Node.static_children_mk, Node.param_child_mk,
              Node.wildcard_child_mk, goodNode_mk, goodOpt_some, Bool.and_eq_true]
            refine ⟨⟨⟨h1, h2⟩, ⟨?_, ?_⟩⟩, h4⟩
            · simpa using hp.2
            · simpa using hp.1
          · simp [route_insert, hw, hpm, is_empty_recursive]
        · have hcg : goodNode ((alookup sc seg).getD Node.new) = true := by
            cases hsc : alookup sc seg with
            | none => simpa using goodNode_new
            | some c => simpa using (goodChildren_alookup h2 hsc).2
          have hp := ih ((alookup sc seg).getD Node.new) method md hcg
          constructor
          · simp only [route_insert, hw, hpm, ite_true, ite_false, Bool.false_eq_true,
              Node.methods_mk, Node.static_children_mk, Node.param_child_mk,
              Node.wildcard_child_mk, goodNode_mk, Bool.and_eq_true]
            refine ⟨⟨⟨h1, ?_⟩, h3⟩, h4⟩
            exact goodChildren_ainsert h2 (by simpa using hp.2) (by simpa using hp.1)
          · simp [route_insert, hw, hpm, is_empty_recursive, ainsert_ne_nil]

theorem recurse_remove_good :
    ∀ (segs : List String) (n : Node T) (method : String),
      goodNode n = true →
      goodNode (recurse_remove n method segs).1 = true ∧
        ((recurse_remove n method segs).2 = false → (recurse_remove n method segs).1 = n) := by
  intro segs
  induction segs with
  | nil =>
    intro n method hg
    cases n with
    | mk ms sc pc wc =>
      simp only [goodNode_mk, Bool.and_eq_true] at hg
      obtain ⟨⟨⟨h1, h2⟩, h3⟩, h4⟩ := hg
      cases hms : alookup ms method with
      | none =>
        simp [recurse_remove, hms, goodNode_mk, h1, h2, h3, h4]
      | some handlers =>
        have hne : handlers.isEmpty = false := handlersOK_alookup h1 hms
        simp only [recurse_remove, Node.methods_mk, Node.static_children_mk,
          Node.param_child_mk, Node.wildcard_child_mk, hms, hne]
        constructor
        · simp [goodNode_mk, handlersOK_aremove h1, h2, h3, h4]
        · simp
  | cons seg rest ih =>
    intro n method hg
    cases n with
    | mk ms sc pc wc =>
      simp only [goodNode_mk, Bool.and_eq_true] at hg
      obtain ⟨⟨⟨h1, h2⟩, h3⟩, h4⟩ := hg
      by_cases hw : segStartsWith (dropQMark seg) "**"
      · cases wc with
        | none =>
          simp [recurse_remove, hw, goodNode_mk, h1, h2, h3, h4]
        | some c =>
          simp only [goodOpt_some, Bool.and_eq_true] at h4
          have hr := ih c method h4.2
          rcases hres : recurse_remove c method rest with ⟨c', b⟩
          rw [hres] at hr
          simp only [recurse_remove, Node.methods_mk, Node.static_children_mk,
            Node.param_child_mk, Node.wildcard_child_mk, hw, ite_true, ite_false, hres]
          cases b with
          | false =>
            have hc : c' = c := hr.2 rfl
            subst hc
            constructor
            · simp [goodNode_mk, h1, h2, h3, goodOpt_some, h4.1, h4.2]
            · intro _; rfl
          | true =>
            by_cases he : is_empty_recursive c' = true
            · simp only [he, ite_true]
              constructor
              · simp [goodNode_mk, h1, h2, h3, goodOpt_none]
              · simp
            · simp only [he, ite_false]
              constructor
              · have he' : is_empty_recursive c' = false := by
                  simpa using he
                simp [goodNode_mk, h1, h2, h3, goodOpt_some, he', hr.1]
              · simp
      · by_cases hpm : segStartsWith (dropQMark seg) ":" || dropQMark seg = "*"
        · cases pc with
          | none =>
            simp [recurse_remove, hw, hpm, goodNode_mk, h1, h2, h3, h4]
          | some c =>
            simp only [goodOpt_some, Bool.and_eq_true] at h3
            have hr := ih c method h3.2
            rcases hres : recurse_remove c method rest with ⟨c', b⟩
            rw [hres] at hr
            simp only [recurse_remove, Node.methods_mk, Node.static_children_mk,
              Node.param_child_mk, Node.wildcard_child_mk, hw, hpm, ite_true,
              ite_false, hres]
            cases b with
            | false =>
              have hc : c' = c := hr.2 rfl
              subst hc
              constructor
              · simp [goodNode_mk, h1, h2, goodOpt_some, h3.1, h3.2, h4]
              · intro _; rfl
            | true =>
              by_cases he : is_empty_recursive c' = true
              · simp only [he, ite_true]
                constructor
                · simp [goodNode_mk, h1, h2, goodOpt_none, h4]
                · simp
              · simp only [he, ite_false]
                constructor
                · have he' : is_empty_recursive c' = false := by
                    simpa using he
                  simp [goodNode_mk, h1, h2, goodOpt_some, he', hr.1, h4]
                · simp
        · cases hsc : alookup sc seg with
          | none =>
            simp [recurse_remove, hw, hpm, hsc, goodNode_mk, h1, h2, h3, h4]
          | some c =>
            have hcg := goodChildren_alookup h2 hsc
            have hr := ih c method hcg.2
            rcases hres : recurse_remove c method rest with ⟨c', b⟩
            rw [hres] at hr
            simp only [recurse_remove, Node.methods_mk, Node.static_children_mk,
              Node.param_child_mk, Node.wildcard_child_mk, hw, hpm, ite_true,
              ite_false, hsc, hres]
            cases b with
            | false =>
              have hc : c' = c := hr.2 rfl
              constructor
              · simp [hc, goodNode_mk, h1, h3, h4, goodChildren_ainsert h2 hcg.1 hcg.2]
              · intro _
                simp [hc, alookup_ainsert_self sc seg c hsc]
            | true =>
              by_cases he : is_empty_recursive c' = true
              · constructor
                · simp [he, goodNode_mk, h1, h3, h4, goodChildren_aremove h2]
                · simp [he]
              · have he' : is_empty_recursive c' = false := by
                  simpa using he
                constructor
                · simp [he', goodNode_mk, h1, h3, h4, goodChildren_ainsert h2 he' hr.1]
                · simp [he']

theorem remove_at_node_good {n : Node T} (method : String)
    (hg : goodNode n = true) :
    goodNode (Node.mk (aremove n.methods method) n.static_children
      n.param_child n.wildcard_child) = true := by
  cases n with
  | mk ms sc pc wc =>
    simp only [goodNode_mk, Bool.and_eq_true] at hg
    simp only [Node.methods_mk, Node.static_children_mk, Node.param_child_mk,
      Node.wildcard_child_mk, goodNode_mk, Bool.and_eq_true]
    exact ⟨⟨⟨handlersOK_aremove hg.1.1.1, hg.1.1.2⟩, hg.1.2⟩, hg.2⟩

theorem addOk_good {r : Router T} (method path : String) (v : T)
    (hg : goodNode r.root = true) :
    goodNode (addOk r method path v).root = true := by
  unfold addOk add_route
  cases hb : build_param_entries_for_pattern_segments (split_path (normalize path)) with
  | error e => simp [hb, hg]
  | ok pm =>
    simp only [hb]
    exact (route_insert_good _ _ _ _ hg).1

theorem removeOk_good {r : Router T} (method path : String)
    (hg : goodNode r.root = true) :
    goodNode (removeOk r method path).root = true := by
  unfold removeOk remove_route
  by_cases hseg : (split_path (normalize path)).isEmpty = true
  · cases hms : alookup r.root.methods method with
    | none => simp [hseg, hms, hg]
    | some handlers => simp [hseg, hms, remove_at_node_good method hg]
  · have hseg' : (split_path (normalize path)).isEmpty = false := by
      simpa using hseg
    simp only [hseg', Bool.false_eq_true, ite_false]
    exact (recurse_remove_good _ _ _ hg).1

theorem applyOp_good {r : Router T} (op : RouterOp T)
    (hg : goodNode r.root = true) : goodNode (applyOp r op).root = true := by
  cases op with
  | add m p v => exact addOk_good m p v hg
  | remove m p => exact removeOk_good m p hg

theorem runOps_good (ops : List (RouterOp T)) :
    goodNode (runOps ops).root = true := by
  have haux : ∀ (l : List (RouterOp T)) (r : Router T), goodNode r.root = true →
      goodNode (l.foldl applyOp r).root = true := by
    intro l
    induction l with
    | nil => intro r hg; simpa using hg
    | cons op rest ih =>
      intro r hg
      simpa [List.foldl_cons] using ih (applyOp r op) (applyOp_good op hg)
  exact haux ops Router.empty goodNode_new

theorem good_imp_ne :
    ∀ (k : Nat) (n : Node T), sizeOf n ≤ k → goodNode n = true →
      noEmptyDescendant n = true := by
  intro k
  induction k with
  | zero =>
    intro n hle
    cases n with
    | mk ms sc pc wc =>
      exfalso
      have : 0 < sizeOf (Node.mk ms sc pc wc) := by
        simp only [Node.mk.sizeOf_spec]
        omega
      omega
  | succ k ih =>
    intro n hle hg
    cases n with
    | mk ms sc pc wc =>
      simp only [goodNode_mk, Bool.and_eq_true] at hg
      obtain ⟨⟨⟨_, h2⟩, h3⟩, h4⟩ := hg
      have hsz : sizeOf sc ≤ k ∧ sizeOf pc ≤ k ∧ sizeOf wc ≤ k := by
        simp only [Node.mk.sizeOf_spec] at hle
        have hms : 0 ≤ sizeOf ms := Nat.zero_le _
        omega
      have hopt : ∀ (oc : Option (Node T)), sizeOf oc ≤ k → goodOpt oc = true →
          neOpt oc = true := by
        intro oc hoc hgo
        cases oc with
        | none => simp [neOpt_none]
        | some c =>
          simp only [Option.some.sizeOf_spec] at hoc
          simp only [goodOpt_some, Bool.and_eq_true] at hgo
          simp only [neOpt_some, Bool.and_eq_true]
          exact ⟨hgo.1, ih c (by omega) hgo.2⟩
      have hchl : ∀ (l : List (String × Node T)), sizeOf l ≤ k →
          goodChildren l = true → neChildren l = true := by
        intro l
        induction l with
        | nil => intro _ _; simp [neChildren_nil]
        | cons hd rest ihl =>
          obtain ⟨s, c⟩ := hd
          intro hsl hgl
          simp only [List.cons.sizeOf_spec, Prod.mk.sizeOf_spec] at hsl
          simp only [goodChildren_cons, Bool.and_eq_true] at hgl
          simp only [neChildren_cons, Bool.and_eq_true]
          exact ⟨⟨hgl.1.1, ih c (by omega) hgl.1.2⟩, ihl (by omega) hgl.2⟩
      simp only [neDescendant_mk, Bool.and_eq_true]
      exact ⟨⟨hchl sc hsz.1 h2, hopt pc hsz.2.1 h3⟩, hopt wc hsz.2.2 h4⟩

theorem build_go_wildcard_not_last :
    ∀ (segs : List String) (i : Nat) (acc : List ParamEntry) (has : Bool),
      (segs.dropLast.any (fun s => segStartsWith (dropQMark s) "**")) = true →
      ∃ seg reason,
        build_param_entries_go i acc has segs = .error (.InvalidSegment seg reason) := by
  intro segs
  induction segs with
  | nil => intro i acc has h; simp at h
  | cons seg rest ih =>
    intro i acc has h
    cases rest with
    | nil => simp [List.dropLast] at h
    | cons r0 rs =>
      simp only [List.dropLast, List.any_cons, Bool.or_eq_true] at h
      rw [build_param_entries_go.eq_def]
      dsimp only
      split_ifs with h0 h1 h2 h3 h4 h5 h6 h7 h8 h9 <;>
        first
          | exact ⟨_, _, rfl⟩
          | (cases h with
              | inl hA => exact absurd hA (by assumption)
              | inr hB => exact ih _ _ _ hB)
          | exact absurd (by assumption) (by simp)

/-! ## Concrete router states used by the claim theorems -/

/-- The three priority patterns of §8: /a/x, /a/:y, /a/**:z, one method. -/
def routerC1 : Router Nat :=
  addOk (addOk (addOk Router.empty "GET" "/a/x" 1) "GET" "/a/:y" 2) "GET" "/a/**:z" 3

/-- A lone non-optional trailing wildcard pattern /a/**:z. -/
def routerC2 : Router Nat := addOk Router.empty "GET" "/a/**:z" 7

/-- The trailing-wildcard pattern /files/**:p. -/
def routerC3 : Router Nat := addOk Router.empty "GET" "/files/**:p" 4

/-- The optional-parameter pattern /items/:id?. -/
def routerC4 : Router Nat := addOk Router.empty "GET" "/items/:id?" 9

/-- The three overlapping patterns of the all-matches ordering scenario. -/
def routerC5 : Router Nat :=
  addOk (addOk (addOk Router.empty "GET" "/config/:k" 1) "GET" "/config/**:p" 2)
    "GET" "/**:root" 3

/-- The pattern /a/:y/b, whose node path a → param → b is also reached by the
analyzer-rejected removal pattern /a/:/b. -/
def routerC7 : Router Nat := addOk Router.empty "GET" "/a/:y/b" 5

/-- The purely literal pattern /foo? (the optional marker is part of the
stored key). -/
def routerC9 : Router Nat := addOk Router.empty "GET" "/foo?" 7

/-- The pattern /*/** in which both directives use the reserved name _. -/
def routerC10 : Router Nat := addOk Router.empty "GET" "/*/**" 6

/-- Param child holding one handler whose plan has a non-optional last
directive (pattern shape /a/:y). -/
def c2ParamNode : Node Nat :=
  .mk [("GET", [⟨2, some [.Index 1 "y" false]⟩])] [] none none

/-- Wildcard child holding one handler whose plan has a non-optional last
directive (pattern shape /a/**:z). -/
def c2WildNode : Node Nat :=
  .mk [("GET", [⟨3, some [.Wildcard 1 "z" false]⟩])] [] none none

/-- A node with no handlers, the above param child, and the above wildcard
child — the terminal-case configuration of claim C2. -/
def c2TermNode : Node Nat := .mk [] [] (some c2ParamNode) (some c2WildNode)

/-! ## Claim theorems -/

/-- C1: single-best-match tries static, then param, then wildcard children:
with /a/x, /a/:y and /a/**:z inserted for GET, lookup of /a/x returns the
literal pattern's payload, /a/other returns the parameter payload binding
y = "other", and /a/other/more returns the wildcard payload binding
z = "other/more". -/
theorem c1_priority_order :
    find_route routerC1 "GET" "/a/x" true = .ok ⟨1, none⟩ ∧
    find_route routerC1 "GET" "/a/other" true = .ok ⟨2, some [("y", "other")]⟩ ∧
    find_route routerC1 "GET" "/a/other/more" true
      = .ok ⟨3, some [("z", "other/more")]⟩ :=
  ⟨rfl, rfl, rfl⟩

/-- C2 counterexample: with /a/**:z (no optional marker) inserted, findOne on
/a succeeds through the terminal-case wildcard fallthrough although the
returned record's plan does not pass the optional-last-element test — so the
wildcard fallthrough is not gated by that test as the claim states. -/
theorem c2_counterexample :
    find_route routerC2 "GET" "/a" true = .ok ⟨7, some [("z", "")]⟩ ∧
    lookup_node_recursive routerC2.root "GET" ["a"]
      = some ⟨7, some [.Wildcard 1 "z" false]⟩ ∧
    is_handler_for_optional_pattern
      (⟨7, some [.Wildcard 1 "z" false]⟩ : MethodData Nat) = false :=
  ⟨rfl, rfl, rfl⟩

/-- C2 (amended): in the terminal case with no handler on the node, the
fallthrough to the param child is gated by the optional-last-element test
(handlers that all fail the test are skipped), while the fallthrough to the
wildcard child is unconditional: its first handler record under the method
preference is returned with no optionality requirement. -/
theorem c2_amended_terminal_fallthrough (T : Type) (n pcN wcN : Node T)
    (method : String) (hd : MethodData T) (tl : List (MethodData T))
    (h1 : methodsPref n.methods method = none)
    (h2 : n.param_child = some pcN)
    (h3 : ∀ L, methodsPref pcN.methods method = some L →
      L.any is_handler_for_optional_pattern = false)
    (h4 : n.wildcard_child = some wcN)
    (h5 : methodsPref wcN.methods method = some (hd :: tl)) :
    lookup_node_recursive n method [] = some hd := by
  cases n with
  | mk ms sc pc wc =>
    simp only [Node.methods_mk, Node.param_child_mk, Node.wildcard_child_mk]
      at h1 h2 h4
    subst h2
    subst h4
    cases hL : methodsPref pcN.methods method with
    | none => simp [lookup_node_recursive, h1, hL, h5]
    | some L => simp [lookup_node_recursive, h1, hL, h3 L hL, h5]

/-- C2 witness: the amended statement evaluated on a concrete terminal node
whose param and wildcard children each hold one non-optional handler. -/
theorem c2_amended_terminal_fallthrough_witness :
    lookup_node_recursive c2TermNode "GET" []
      = some ⟨3, some [.Wildcard 1 "z" false]⟩ :=
  c2_amended_terminal_fallthrough Nat c2TermNode c2ParamNode c2WildNode "GET"
    ⟨3, some [.Wildcard 1 "z" false]⟩ [] rfl rfl
    (by
      intro L hL
      rw [show methodsPref c2ParamNode.methods "GET"
        = some [⟨2, some [.Index 1 "y" false]⟩] from rfl] at hL
      cases hL
      rfl)
    rfl rfl

/-- C3: with /files/**:p inserted, findOne on /files/ succeeds with p bound
to the empty string, and findOne on /files/a/b.txt binds p = "a/b.txt". -/
theorem c3_trailing_wildcard_capture :
    find_route routerC3 "GET" "/files/" true = .ok ⟨4, some [("p", "")]⟩ ∧
    find_route routerC3 "GET" "/files/a/b.txt" true
      = .ok ⟨4, some [("p", "a/b.txt")]⟩ :=
  ⟨rfl, rfl⟩

/-- C4: with /items/:id? inserted, findOne on /items/42 binds id = "42" and
findOne on /items/ returns the same record with the parameter map absent
(no directive produced a binding). -/
theorem c4_optional_trailing_param :
    find_route routerC4 "GET" "/items/42" true = .ok ⟨9, some [("id", "42")]⟩ ∧
    find_route routerC4 "GET" "/items/" true = .ok ⟨9, none⟩ :=
  ⟨rfl, rfl⟩

/-- C5: with /config/:k, /config/**:p and /**:root inserted with distinct
payloads 1, 2, 3, the all-matches lookup of /config/timeout returns exactly
those three payloads in traversal order: the root wildcard first, then
/config/**:p, then /config/:k. -/
theorem c5_find_all_order :
    find_all_routes routerC5 "GET" "/config/timeout" false
      = [⟨3, none⟩, ⟨2, none⟩, ⟨1, none⟩] :=
  rfl

/-- C6: after every sequence of insert and remove operations starting from
the empty router, every non-root trie node reachable from the root has at
least one handler record or at least one child (no empty interior node
remains attached). -/
theorem c6_no_empty_reachable_node (T : Type) (ops : List (RouterOp T)) :
    noEmptyDescendant ((runOps ops).root) = true :=
  good_imp_ne (sizeOf (runOps ops).root) _ (Nat.le_refl _) (runOps_good ops)

/-- C7: evaluation at the failing input.  The analyzer rejects the pattern
/a/:/b, yet remove_route on that pattern returns Ok (never the analysis
failure) and, selecting child kinds syntactically, deletes the handler that
was registered under /a/:y/b — the trie is modified. -/
theorem c7_remove_ignores_analyzer :
    build_param_entries_for_pattern_segments (split_path (normalize "/a/:/b"))
      = .error (.InvalidSegment ":" "named parameter must have a name") ∧
    find_route routerC7 "GET" "/a/q/b" false = .ok ⟨5, none⟩ ∧
    remove_route routerC7 "GET" "/a/:/b"
      = .ok (removeOk routerC7 "GET" "/a/:/b", true) ∧
    find_route (removeOk routerC7 "GET" "/a/:/b") "GET" "/a/q/b" false
      = .error (.RouteNotFound "GET" "/a/q/b") :=
  ⟨rfl, rfl, rfl, rfl⟩

/-- C8: for every router, method, payload and pattern whose canonical segment
list has a ** segment (after stripping the optional marker) in a non-last
position, insert fails with an InvalidSegment error; the error is produced by
the analyzer before any state is touched, so the router is unchanged. -/
theorem c8_wildcard_not_last_insert_fails (T : Type) (r : Router T)
    (method path : String) (v : T)
    (h : ((split_path (normalize path)).dropLast.any
      (fun s => segStartsWith (dropQMark s) "**")) = true) :
    ∃ seg reason, add_route r method path v = .error (.InvalidSegment seg reason) := by
  obtain ⟨s, rsn, hb⟩ :=
    build_go_wildcard_not_last (split_path (normalize path)) 0 [] false h
  refine ⟨s, rsn, ?_⟩
  simp [add_route, build_param_entries_for_pattern_segments, hb]

/-- C8 witness: the pattern /**/x has its wildcard in a non-last position,
and inserting it into the empty router fails with an InvalidSegment error. -/
theorem c8_wildcard_not_last_insert_fails_witness :
    (((split_path (normalize "/**/x")).dropLast.any
      (fun s => segStartsWith (dropQMark s) "**")) = true) ∧
    (∃ seg reason, add_route Router.empty "GET" "/**/x" (0 : Nat)
      = .error (.InvalidSegment seg reason)) :=
  ⟨by decide,
   c8_wildcard_not_last_insert_fails Nat Router.empty "GET" "/**/x" 0 (by decide)⟩

/-- C9: the optional marker on a literal segment is kept verbatim: after
inserting /foo? the key "foo?" appears in both the static fast-path map and
the root's static children, findOne on /foo? returns the payload, and
findOne on /foo misses with RouteNotFound. -/
theorem c9_literal_optional_marker_kept :
    (alookup routerC9.static_map "foo?").isSome = true ∧
    (alookup routerC9.root.static_children "foo?").isSome = true ∧
    find_route routerC9 "GET" "/foo?" true = .ok ⟨7, none⟩ ∧
    find_route routerC9 "GET" "/foo" true = .error (.RouteNotFound "GET" "/foo") :=
  ⟨rfl, rfl, rfl, rfl⟩

/-- C10: in /*/** both directives bind the reserved name _, and the extractor
inserts in plan order so the wildcard value overwrites the parameter value:
findOne on /a/b/c with capture yields the single binding _ = "b/c". -/
theorem c10_reserved_name_overwrite :
    find_route routerC10 "GET" "/a/b/c" true = .ok ⟨6, some [("_", "b/c")]⟩ :=
  rfl

end Rou3
